import Mathlib

/-!
Verification development for the `sherlock` LLM traffic-inspecting reverse
proxy.  The Rust sources are shallowly embedded: JSON values become an
inductive type, the per-vendor request parsers and the recursive text
extractor become Lean functions, the proxy request handler becomes a pure
function over an explicit request/queue/upstream model, and the dashboard
aggregator becomes explicit state passing.  Machine integers are modelled
as `Nat` with an explicit `% 2 ^ 64` where the Rust `u64` addition may
wrap.  External library behaviour that the code relies on (the serde JSON
decoder, the tiktoken token counter, the `http` crate header-value
conversion) is modelled as explicit function parameters or small faithful
definitions, noted at each site.
-/

/-- Model of `serde_json::Value`.  Objects are association lists in the
map's iteration order; serde maps never hold duplicate keys, so `get` is
first-match lookup.  The numeric payload is irrelevant to every embedded
function (numbers always extract to the empty string), so it is kept as an
`Int`. -/
inductive Json where
  | str (s : String)
  | num (n : Int)
  | bool (b : Bool)
  | null
  | arr (elems : List Json)
  | obj (fields : List (String × Json))

/-- First-match association-list lookup, the model of map lookup inside a
`serde_json::Map`. -/
def jlookup (k : String) : List (String × Json) → Option Json
  | [] => none
  | (k', v) :: fs => if k' = k then some v else jlookup k fs

/-- Model of `serde_json::Value::get` with a string index: object lookup,
`None` on every other value kind. -/
def Json.get (j : Json) (k : String) : Option Json :=
  match j with
  | .obj fields => jlookup k fields
  | _ => none

/-- Model of `serde_json::Value::as_str`. -/
def Json.asStr (j : Json) : Option String :=
  match j with
  | .str s => some s
  | _ => none

/-- `obj.get(k).and_then(|v| v.as_str())`: the string value of field `k`,
if the field exists and is a string. -/
def getStr (k : String) (fields : List (String × Json)) : Option String :=
  (jlookup k fields).bind Json.asStr

/-- `.filter(|s| !s.is_empty()).collect::<Vec<_>>().join("\n")`:
newline-join after discarding empty strings. -/
def joinNonEmpty (ss : List String) : String :=
  String.intercalate "\n" (ss.filter (fun s => !s.isEmpty))

mutual

/-- Embedding of `extract_text_from_value` (src/parser.rs): recursively
extract all text from a JSON value. -/
def extract_text_from_value : Json → String
  | .str s => s
  | .arr elems => joinNonEmpty (extractElems elems)
  | .obj fields =>
    -- Prioritize "text" and "content" fields
    match getStr "text" fields with
    | some text => text
    | none =>
      match extractContentField fields with
      | some s => s
      | none => joinNonEmpty (extractValues fields)
  | _ => ""

/-- `arr.iter().map(extract_text_from_value)` over an array's elements. -/
def extractElems : List Json → List String
  | [] => []
  | x :: xs => extract_text_from_value x :: extractElems xs

/-- The `content` short-circuit: extraction of the first `content` field,
if one exists. -/
def extractContentField : List (String × Json) → Option String
  | [] => none
  | (k, v) :: fs =>
    if k = "content" then some (extract_text_from_value v)
    else extractContentField fs

/-- `obj.values().map(extract_text_from_value)` over an object's values. -/
def extractValues : List (String × Json) → List String
  | [] => []
  | (_, v) :: fs => extract_text_from_value v :: extractValues fs

end

theorem extractElems_eq_map (xs : List Json) :
    extractElems xs = xs.map extract_text_from_value := by
  induction xs with
  | nil => rfl
  | cons x xs ih => simp [extractElems, ih]

theorem extractValues_eq_map (fs : List (String × Json)) :
    extractValues fs = fs.map (fun f => extract_text_from_value f.2) := by
  induction fs with
  | nil => rfl
  | cons f fs ih =>
    cases f
    simp [extractValues, ih]

theorem extractContentField_eq_lookup (fs : List (String × Json)) :
    extractContentField fs = (jlookup "content" fs).map extract_text_from_value := by
  induction fs with
  | nil => rfl
  | cons f fs ih =>
    cases f with
    | mk k v =>
      by_cases hk : k = "content"
      · simp [extractContentField, jlookup, hk]
      · simp [extractContentField, jlookup, hk, ih]

example : extract_text_from_value
    (.obj [("content", .arr [.obj [("type", .str "text"), ("text", .str "Hello")],
                             .obj [("type", .str "text"), ("text", .str "World")]])])
    = "Hello\nWorld" := by rfl

example : extract_text_from_value (.arr [.str "a", .num 3, .str "", .str "b"]) = "a\nb" := by rfl

/-- A normalized message (src/event.rs `Message`). -/
structure Message where
  role : String
  content : String
deriving DecidableEq, Repr

/-- The pure payload of `RequestEvent` (src/event.rs).  The wall-clock
`timestamp` field is a side effect of `chrono::Utc::now()` at construction
time and carries no program logic, so it is omitted from the embedding. -/
structure RequestEvent where
  provider : String
  model : String
  tokens : Nat
  messages : List Message
  raw_body : Json
  path : String

/-- `body.get("model").and_then(|v| v.as_str()).unwrap_or(default)`. -/
def modelField (body : Json) (dflt : String) : String :=
  ((body.get "model").bind Json.asStr).getD dflt

/-- The synthetic system messages of `parse_anthropic_request`: one leading
`system` message when the top-level `system` field extracts to non-empty
text, none otherwise. -/
def anthropic_system_msgs (body : Json) : List Message :=
  match body.get "system" with
  | some system =>
    let system_text := extract_text_from_value system
    if system_text.isEmpty then [] else [⟨"system", system_text⟩]
  | none => []

/-- The text contribution of the `system` field to the token-counting blob
(`all_text`) of `parse_anthropic_request`. -/
def anthropic_system_text (body : Json) : String :=
  match body.get "system" with
  | some system =>
    let system_text := extract_text_from_value system
    if system_text.isEmpty then "" else system_text ++ "\n"
  | none => ""

/-- One iteration of the `messages` loop shared by the anthropic and openai
parsers: role from the `role` field (default "unknown"), content from the
`content` field through the text extractor (empty when absent). -/
def messagesEntry (msg : Json) : Message :=
  { role := ((msg.get "role").bind Json.asStr).getD "unknown"
    content :=
      match msg.get "content" with
      | some content_val => extract_text_from_value content_val
      | none => "" }

/-- The top-level `messages` array, when present and an array. -/
def messagesArray (body : Json) : List Json :=
  match body.get "messages" with
  | some (.arr msgs) => msgs
  | _ => []

/-- The `all_text` contribution of a list of already-normalized messages:
each non-empty content followed by a newline, in order. -/
def contentsText (msgs : List Message) : String :=
  String.join (msgs.map (fun m => if m.content.isEmpty then "" else m.content ++ "\n"))

/-- Embedding of `parse_anthropic_request` (src/parser.rs): model (default
"unknown"), an optional synthetic leading system message from the `system`
field, then one normalized message per element of the `messages` array;
the accumulated `all_text` blob is returned for token counting. -/
def parse_anthropic_request (body : Json) : String × List Message × String :=
  let model := modelField body "unknown"
  let sysMsgs := anthropic_system_msgs body
  let msgs := (messagesArray body).map messagesEntry
  (model, sysMsgs ++ msgs, anthropic_system_text body ++ contentsText msgs)

/-- Embedding of `parse_openai_request` (src/parser.rs): as the anthropic
parser but with no system-field handling. -/
def parse_openai_request (body : Json) : String × List Message × String :=
  let model := modelField body "unknown"
  let msgs := (messagesArray body).map messagesEntry
  (model, msgs, contentsText msgs)

/-- The synthetic system messages of `parse_gemini_request`, from the
top-level `systemInstruction` field. -/
def gemini_system_msgs (body : Json) : List Message :=
  match body.get "systemInstruction" with
  | some system =>
    let system_text := extract_text_from_value system
    if system_text.isEmpty then [] else [⟨"system", system_text⟩]
  | none => []

/-- The `all_text` contribution of the `systemInstruction` field. -/
def gemini_system_text (body : Json) : String :=
  match body.get "systemInstruction" with
  | some system =>
    let system_text := extract_text_from_value system
    if system_text.isEmpty then "" else system_text ++ "\n"
  | none => ""

/-- `part.get("text").and_then(|v| v.as_str())` inside the gemini `parts`
loop. -/
def geminiPartText (part : Json) : Option String :=
  (part.get "text").bind Json.asStr

/-- One iteration of the `contents` loop of `parse_gemini_request`: role
from the element's `role` field (default "user"); text preferentially the
newline-join of the string `text` fields of a `parts` array, falling back
to the generic text extractor on the whole element. -/
def geminiContentEntry (content : Json) : Message :=
  { role := ((content.get "role").bind Json.asStr).getD "user"
    content :=
      match content.get "parts" with
      | some (.arr parts) => String.intercalate "\n" (parts.filterMap geminiPartText)
      | _ => extract_text_from_value content }

/-- The top-level `contents` array, when present and an array. -/
def contentsArray (body : Json) : List Json :=
  match body.get "contents" with
  | some (.arr contents) => contents
  | _ => []

/-- Embedding of `parse_gemini_request` (src/parser.rs): model default
"gemini", synthetic system message from `systemInstruction`, then one
normalized message per element of the `contents` array. -/
def parse_gemini_request (body : Json) : String × List Message × String :=
  let model := modelField body "gemini"
  let sysMsgs := gemini_system_msgs body
  let msgs := (contentsArray body).map geminiContentEntry
  (model, sysMsgs ++ msgs, gemini_system_text body ++ contentsText msgs)

/-- The provider dispatch of `parse_request` (src/parser.rs) after JSON
decoding, parameterized by the token counter `ct` (the `count_tokens`
wrapper around the process-wide tiktoken `cl100k_base` encoder, an external
library treated as a black box).  Unrecognized providers take the generic
fallback: model default "unknown", no messages, text blob from the
extractor on the whole body. -/
def parse_request_json (ct : String → Nat) (raw_body : Json)
    (path provider : String) : RequestEvent :=
  let res : String × List Message × String :=
    match provider with
    | "anthropic" => parse_anthropic_request raw_body
    | "openai" => parse_openai_request raw_body
    | "gemini" => parse_gemini_request raw_body
    | _ => (modelField raw_body "unknown", [], extract_text_from_value raw_body)
  { provider := provider
    model := res.1
    tokens := ct res.2.2
    messages := res.2.1
    raw_body := raw_body
    path := path }

/-- Embedding of `parse_request` (src/parser.rs), parameterized by the
serde decoder `decode` (modelling `serde_json::from_slice` on the body
bytes, an external library).  The only error path is a failed JSON decode;
the three vendor parsers return `Result` in Rust but have no failing
branch. -/
def parse_request (ct : String → Nat) (decode : List Nat → Option Json)
    (body : List Nat) (path provider : String) : Except String RequestEvent :=
  match decode body with
  | none => .error "invalid JSON body"
  | some raw_body => .ok (parse_request_json ct raw_body path provider)

/-- `path.contains(&pattern)`: substring containment of the pattern in the
path, modelled as character-list infix (equivalent to the byte-level search
on valid UTF-8). -/
def strContains (path pattern : String) : Bool :=
  decide (pattern.toList <:+: path.toList)

/-- Provider configuration (src/config.rs `ProviderConfig`); the `host` and
`env_vars` fields are used only by the out-of-scope launcher. -/
structure ProviderConfig where
  base_url : String
  path_pattern : String

/-- Embedding of `detect_provider` (src/parser.rs).  The provider set is a
`HashMap` in Rust; the list argument represents its (arbitrary) iteration
order, and the first provider whose pattern is contained in the path
wins. -/
def detect_provider (path : String) :
    List (String × ProviderConfig) → Option String
  | [] => none
  | (name, config) :: rest =>
    if strContains path config.path_pattern then some name
    else detect_provider path rest

/-- `HashMap::get` on the provider set: the unique entry with this key.
The list model looks up the first entry with the name. -/
def providersGet (providers : List (String × ProviderConfig))
    (name : String) : Option ProviderConfig :=
  (providers.find? (fun p => p.1 = name)).map (fun p => p.2)

/-- `hyper::Method` / `reqwest::Method` (both are `http::Method`): the
standard methods plus extension methods. -/
inductive Method where
  | GET | POST | PUT | DELETE | PATCH | HEAD | OPTIONS | CONNECT | TRACE
  | ext (s : String)
deriving DecidableEq, Repr

/-- Embedding of `method_to_reqwest` (src/proxy.rs): identity on the seven
matched methods, `GET` for everything else. -/
def method_to_reqwest (method : Method) : Method :=
  match method with
  | .GET => .GET
  | .POST => .POST
  | .PUT => .PUT
  | .DELETE => .DELETE
  | .PATCH => .PATCH
  | .HEAD => .HEAD
  | .OPTIONS => .OPTIONS
  | _ => .GET

/-- `str::to_lowercase` as applied to header names (ASCII tokens),
modelled character-wise over the string's character list so that it
evaluates by kernel reduction. -/
def toLowerStr (s : String) : String :=
  String.mk (s.toList.map Char.toLower)

/-- Embedding of `is_hop_by_hop_header` (src/proxy.rs). -/
def is_hop_by_hop_header (name : String) : Bool :=
  name = "connection" || name = "keep-alive" || name = "proxy-authenticate" ||
  name = "proxy-authorization" || name = "te" || name = "trailers" ||
  name = "transfer-encoding" || name = "upgrade" || name = "host"

/-- A header as carried by a hyper/reqwest header map: a name and an opaque
byte-sequence value. -/
structure Header where
  name : String
  value : List Nat

/-- Model of `http::HeaderValue::to_str`: succeeds exactly when every byte
is visible ASCII (32–126) or horizontal tab, yielding the corresponding
string. -/
def headerValueToStr (value : List Nat) : Option String :=
  if value.all (fun b => (32 ≤ b && b < 127) || b = 9) then
    some (String.mk (value.map Char.ofNat))
  else none

/-- The request-header copy loop of `handle_request` (src/proxy.rs): keep a
header iff its lowercased name is not hop-by-hop and its value converts to
a string; the forwarded pair keeps the original name. -/
def forwardRequestHeaders (headers : List Header) : List (String × String) :=
  headers.filterMap (fun h =>
    if is_hop_by_hop_header (toLowerStr h.name) then none
    else (headerValueToStr h.value).map (fun v => (h.name, v)))

/-- The response-header copy loop of `handle_request` (src/proxy.rs): as
for requests, but also dropping `content-encoding`. -/
def forwardResponseHeaders (headers : List Header) : List (String × String) :=
  headers.filterMap (fun h =>
    if is_hop_by_hop_header (toLowerStr h.name) || toLowerStr h.name = "content-encoding" then none
    else (headerValueToStr h.value).map (fun v => (h.name, v)))

/-- An inbound request as seen by `handle_request`: method, path (with
query), headers, and the result of `req.collect()` — either the buffered
body bytes or a read error. -/
structure InboundRequest where
  method : Method
  path : String
  headers : List Header
  body : Except String (List Nat)

/-- The outbound request built by `handle_request` for the upstream
vendor. -/
structure UpstreamRequest where
  method : Method
  url : String
  headers : List (String × String)
  body : List Nat
deriving DecidableEq, Repr

/-- The upstream response as obtained from the reqwest client: status,
headers, and the result of reading the (already-decoded) body bytes. -/
structure UpstreamResponse where
  status : Nat
  headers : List Header
  body : Except String (List Nat)

/-- The body of the response returned to the client: either a short
diagnostic string or relayed upstream bytes. -/
inductive ResponseBody where
  | text (s : String)
  | bytes (bs : List Nat)
deriving DecidableEq, Repr

/-- The response returned to the client. -/
structure ClientResponse where
  status : Nat
  headers : List (String × String)
  body : ResponseBody
deriving DecidableEq, Repr

/-- The primary event queue (a `tokio::sync::mpsc` bounded channel):
capacity and current buffer. -/
structure EventQueue where
  capacity : Nat
  buffer : List RequestEvent

/-- `Sender::try_send`: enqueue immediately when the buffer is below
capacity, otherwise drop the event immediately; never blocks. -/
def trySend (q : EventQueue) (ev : RequestEvent) : EventQueue :=
  if q.buffer.length < q.capacity then { q with buffer := q.buffer ++ [ev] }
  else q

/-- The complete observable outcome of one `handle_request` call: the
response to the client, the upstream request that was sent (`none` when
nothing was forwarded), and the state of the primary event queue
afterwards. -/
structure HandleResult where
  response : ClientResponse
  upstream : Option UpstreamRequest
  queue : EventQueue

/-- The event-publishing step of `handle_request`: on a non-empty body,
parse and `try_send` the event; parse failure and a full queue are logged
and otherwise ignored. -/
def publishEvent (ct : String → Nat) (decode : List Nat → Option Json)
    (q : EventQueue) (body_bytes : List Nat) (path provider : String) :
    EventQueue :=
  if body_bytes.isEmpty then q
  else
    match parse_request ct decode body_bytes path provider with
    | .ok event => trySend q event
    | .error _ => q

/-- Embedding of `handle_request` (src/proxy.rs), parameterized by the
token counter `ct`, the JSON decoder `decode`, and the upstream exchange
`send` (the pooled reqwest client: a function from the built request to
either a transport error or a response).  Mirrors the handler's control
flow: provider detection (400 on no match, before the body is read), body
read (400 on failure), best-effort event publishing, outbound request
construction with filtered headers, and response relay (502 on transport
or body-read failure, filtered headers otherwise). -/
def handle_request (ct : String → Nat) (decode : List Nat → Option Json)
    (send : UpstreamRequest → Except String UpstreamResponse)
    (req : InboundRequest) (providers : List (String × ProviderConfig))
    (queue : EventQueue) : HandleResult :=
  match detect_provider req.path providers with
  | none =>
    { response := { status := 400, headers := [], body := .text "Unknown provider" }
      upstream := none
      queue := queue }
  | some provider_name =>
    -- `providers.get(&provider_name).unwrap()`: the default is unreachable
    -- because `detect_provider` only returns keys of the map.
    let provider_config := (providersGet providers provider_name).getD ⟨"", ""⟩
    match req.body with
    | .error _ =>
      { response := { status := 400, headers := [], body := .text "Failed to read request body" }
        upstream := none
        queue := queue }
    | .ok body_bytes =>
      let queue := publishEvent ct decode queue body_bytes req.path provider_name
      let upstream_url := provider_config.base_url ++ req.path
      let upstream_req : UpstreamRequest :=
        { method := method_to_reqwest req.method
          url := upstream_url
          headers := forwardRequestHeaders req.headers
          body := body_bytes }
      match send upstream_req with
      | .error e =>
        { response := { status := 502, headers := [], body := .text ("Upstream error: " ++ e) }
          upstream := some upstream_req
          queue := queue }
      | .ok upstream_resp =>
        match upstream_resp.body with
        | .error _ =>
          { response := { status := 502, headers := [],
                          body := .text "Failed to read upstream response" }
            upstream := some upstream_req
            queue := queue }
        | .ok resp_body =>
          { response := { status := upstream_resp.status
                          headers := forwardResponseHeaders upstream_resp.headers
                          body := .bytes resp_body }
            upstream := some upstream_req
            queue := queue }

/-- `capitalize` (src/event.rs): uppercase the first character. -/
def capitalize (s : String) : String :=
  match s.toList with
  | [] => ""
  | first :: rest => String.mk (first.toUpper :: rest)

/-- `RequestEvent::last_user_message` (src/event.rs): the content of the
last message with role "user". -/
def last_user_message (e : RequestEvent) : Option String :=
  (e.messages.reverse.find? (fun m => m.role = "user")).map (fun m => m.content)

/-- Dashboard-row summary of a request (src/event.rs `RequestInfo`).  The
`time` field is the wall-clock timestamp formatted `%H:%M:%S` and is
omitted with the timestamp itself. -/
structure RequestInfo where
  provider : String
  model : String
  tokens : Nat
deriving DecidableEq, Repr

/-- `RequestInfo::from(&RequestEvent)` (src/event.rs). -/
def RequestInfo.ofEvent (event : RequestEvent) : RequestInfo :=
  { provider := capitalize event.provider
    model := event.model
    tokens := event.tokens }

/-- The aggregator state (src/dashboard.rs `Dashboard`), with the
configured ring-buffer capacity inlined from `DashboardConfig`.  The
`total_tokens` field is a Rust `u64`; its update is modelled with an
explicit wrap at `2 ^ 64`. -/
structure Dashboard where
  max_log_entries : Nat
  total_tokens : Nat
  requests : List RequestInfo
  last_prompt : String
  last_provider : String

/-- `Dashboard::new` (src/dashboard.rs). -/
def Dashboard.new (max_log_entries : Nat) : Dashboard :=
  { max_log_entries := max_log_entries
    total_tokens := 0
    requests := []
    last_prompt := ""
    last_provider := "" }

/-- The `while self.requests.len() > max { pop_back }` loop of
`Dashboard::add_request`. -/
def trimBack (l : List RequestInfo) (cap : Nat) : List RequestInfo :=
  if l.length ≤ cap then l else trimBack l.dropLast cap
termination_by l.length
decreasing_by
  simp only [List.length_dropLast]
  omega

/-- Embedding of `Dashboard::add_request` (src/dashboard.rs): add the token
count to the running total (u64 wrap made explicit), remember the provider
and last user prompt, push the summary to the front and pop from the back
while over capacity. -/
def Dashboard.add_request (d : Dashboard) (event : RequestEvent) : Dashboard :=
  { d with
    total_tokens := (d.total_tokens + event.tokens) % 2 ^ 64
    last_provider := event.provider
    last_prompt :=
      match last_user_message event with
      | some prompt => prompt
      | none => d.last_prompt
    requests := trimBack (RequestInfo.ofEvent event :: d.requests) d.max_log_entries }

theorem trimBack_eq_take (l : List RequestInfo) (cap : Nat) :
    trimBack l cap = l.take cap := by
  rw [trimBack]
  split
  · next h => exact (List.take_of_length_le h).symm
  · next h =>
    rw [trimBack_eq_take l.dropLast cap, List.dropLast_eq_take, List.take_take]
    congr 1
    omega
termination_by l.length
decreasing_by
  simp only [List.length_dropLast]
  omega

/-- C1: full characterization of the Text Extractor: a string extracts to
itself; an array to the newline-join of the non-empty recursive
extractions of its elements; an object with a string `text` field to that
value regardless of sibling fields; otherwise an object with a `content`
field to the recursive extraction of that field alone; otherwise an object
to the newline-join of the non-empty recursive extractions of all its
values; numbers, booleans and null to the empty string. -/
theorem extract_text_characterization :
    (∀ s, extract_text_from_value (.str s) = s)
    ∧ (∀ elems, extract_text_from_value (.arr elems) =
        String.intercalate "\n"
          ((elems.map extract_text_from_value).filter (fun s => !s.isEmpty)))
    ∧ (∀ fields text, getStr "text" fields = some text →
        extract_text_from_value (.obj fields) = text)
    ∧ (∀ fields content, getStr "text" fields = none →
        jlookup "content" fields = some content →
        extract_text_from_value (.obj fields) = extract_text_from_value content)
    ∧ (∀ fields, getStr "text" fields = none →
        jlookup "content" fields = none →
        extract_text_from_value (.obj fields) =
          String.intercalate "\n"
            ((fields.map (fun f => extract_text_from_value f.2)).filter
              (fun s => !s.isEmpty)))
    ∧ (∀ n, extract_text_from_value (.num n) = "")
    ∧ (∀ b, extract_text_from_value (.bool b) = "")
    ∧ extract_text_from_value .null = "" := by
  refine ⟨fun s => rfl, fun elems => ?_, fun fields text ht => ?_,
          fun fields content ht hc => ?_, fun fields ht hc => ?_,
          fun n => rfl, fun b => rfl, rfl⟩
  · simp [extract_text_from_value, joinNonEmpty, extractElems_eq_map]
  · simp [extract_text_from_value, ht]
  · simp [extract_text_from_value, ht, extractContentField_eq_lookup, hc]
  · simp [extract_text_from_value, ht, extractContentField_eq_lookup, hc,
          joinNonEmpty, extractValues_eq_map]

/-- Witness for `extract_text_characterization` at concrete objects: the
`text` short-circuit ignores siblings (including a `content` sibling), and
the `content` short-circuit recurses on that field alone. -/
theorem extract_text_characterization_witness :
    extract_text_from_value
        (.obj [("a", .num 1), ("text", .str "T"), ("content", .str "C")]) = "T"
    ∧ extract_text_from_value
        (.obj [("k", .bool true), ("content", .arr [.str "x", .str "y"])])
      = extract_text_from_value (.arr [.str "x", .str "y"])
    ∧ extract_text_from_value
        (.obj [("k", .null), ("v", .str "w")])
      = String.intercalate "\n"
          (([Json.null, Json.str "w"].map extract_text_from_value).filter
            (fun s => !s.isEmpty)) :=
  ⟨extract_text_characterization.2.2.1 _ "T" (by rfl),
   extract_text_characterization.2.2.2.1 _ _ (by rfl) (by rfl),
   extract_text_characterization.2.2.2.2.1 _ (by rfl) (by rfl)⟩

/-- The Vendor A round-trip body
`{"model":"m","system":"S","messages":[{"role":"user","content":"U"}]}`. -/
def anthropicExampleBody : Json :=
  .obj [("model", .str "m"), ("system", .str "S"),
        ("messages", .arr [.obj [("role", .str "user"), ("content", .str "U")]])]

/-- C2: on the round-trip body the anthropic parser yields exactly the two
messages `system:"S"` then `user:"U"` (with token blob "S\nU\n"), and the
resulting event has a positive token count for any token counter that is
positive on non-empty text (true of the tiktoken BPE encoder: a non-empty
string encodes to at least one token).  In general the normalized messages
are the synthetic system messages followed by the `messages`-array
messages, and a synthetic system message is emitted iff the top-level
`system` field exists and extracts to non-empty text. -/
theorem anthropic_roundtrip_and_system_rule (ct : String → Nat)
    (hct : ∀ s : String, ¬ s.isEmpty → 0 < ct s) :
    parse_anthropic_request anthropicExampleBody =
      ("m", [⟨"system", "S"⟩, ⟨"user", "U"⟩], "S\nU\n")
    ∧ 0 < (parse_request_json ct anthropicExampleBody "/v1/messages" "anthropic").tokens
    ∧ (∀ body : Json,
        (parse_anthropic_request body).2.1 =
          anthropic_system_msgs body ++ (messagesArray body).map messagesEntry)
    ∧ (∀ body : Json, anthropic_system_msgs body ≠ [] ↔
        ∃ system, body.get "system" = some system
          ∧ ¬ (extract_text_from_value system).isEmpty) := by
  refine ⟨by rfl, ?_, fun body => rfl, fun body => ?_⟩
  · have h : (parse_request_json ct anthropicExampleBody "/v1/messages" "anthropic").tokens
        = ct "S\nU\n" := by rfl
    rw [h]
    exact hct _ (by decide)
  · unfold anthropic_system_msgs
    cases hsys : body.get "system" with
    | none => simp
    | some system =>
      by_cases he : (extract_text_from_value system).isEmpty
      · simp [he]
      · simp [he]

/-- Witness for `anthropic_roundtrip_and_system_rule` with the constant-1
token counter. -/
theorem anthropic_roundtrip_witness :
    0 < (parse_request_json (fun _ => 1) anthropicExampleBody
          "/v1/messages" "anthropic").tokens
    ∧ (anthropic_system_msgs anthropicExampleBody ≠ [] ↔
        ∃ system, anthropicExampleBody.get "system" = some system
          ∧ ¬ (extract_text_from_value system).isEmpty) :=
  ⟨(anthropic_roundtrip_and_system_rule (fun _ => 1)
      (fun _ _ => Nat.one_pos)).2.1,
   (anthropic_roundtrip_and_system_rule (fun _ => 1)
      (fun _ _ => Nat.one_pos)).2.2.2 anthropicExampleBody⟩

/-- The Vendor C example body
`{"contents":[{"role":"user","parts":[{"text":"a"},{"text":"b"}]}]}`. -/
def geminiExampleBody : Json :=
  .obj [("contents", .arr [.obj [("role", .str "user"),
        ("parts", .arr [.obj [("text", .str "a")], .obj [("text", .str "b")]])]])]

/-- C7: on the example body the gemini parser yields the single message
`user:"a\nb"`; in general the messages are the synthetic system messages
followed by one message per `contents` element, the role defaults to
"user" when the element has no `role` field, the model defaults to
"gemini" when the body has no `model` field, the content is the
newline-join of the string `text` fields of a present `parts` array
(parts without one are skipped), and with no `parts` field the generic
Text Extractor is applied to the whole element. -/
theorem gemini_parser_characterization :
    (parse_gemini_request geminiExampleBody).2.1 = [⟨"user", "a\nb"⟩]
    ∧ (∀ body : Json, (parse_gemini_request body).2.1 =
        gemini_system_msgs body ++ (contentsArray body).map geminiContentEntry)
    ∧ (∀ body : Json, body.get "model" = none →
        (parse_gemini_request body).1 = "gemini")
    ∧ (∀ content : Json, content.get "role" = none →
        (geminiContentEntry content).role = "user")
    ∧ (∀ (content : Json) (parts : List Json),
        content.get "parts" = some (.arr parts) →
        (geminiContentEntry content).content =
          String.intercalate "\n"
            (parts.filterMap (fun part => (part.get "text").bind Json.asStr)))
    ∧ (∀ content : Json, content.get "parts" = none →
        (geminiContentEntry content).content = extract_text_from_value content) := by
  refine ⟨by rfl, fun body => rfl, fun body hm => ?_, fun content hr => ?_,
          fun content parts hp => ?_, fun content hp => ?_⟩
  · simp [parse_gemini_request, modelField, hm]
  · simp [geminiContentEntry, hr]
  · simp only [geminiContentEntry, hp]
    rfl
  · simp [geminiContentEntry, hp]

/-- Witness for `gemini_parser_characterization`: defaults and the
parts-join on concrete elements, including a part with no `text` field. -/
theorem gemini_parser_witness :
    (parse_gemini_request (.obj [])).1 = "gemini"
    ∧ (geminiContentEntry (.obj [("parts", .arr [.obj [("text", .str "a")],
        .obj [("note", .str "n")], .obj [("text", .str "b")]])])).role = "user"
    ∧ (geminiContentEntry (.obj [("parts", .arr [.obj [("text", .str "a")],
        .obj [("note", .str "n")], .obj [("text", .str "b")]])])).content
      = String.intercalate "\n"
          ([Json.obj [("text", .str "a")], Json.obj [("note", .str "n")],
            Json.obj [("text", .str "b")]].filterMap
            (fun part => (part.get "text").bind Json.asStr))
    ∧ (geminiContentEntry (.obj [("role", .str "model"), ("x", .str "y")])).content
      = extract_text_from_value (.obj [("role", .str "model"), ("x", .str "y")]) :=
  ⟨gemini_parser_characterization.2.2.1 _ (by rfl),
   gemini_parser_characterization.2.2.2.1 _ (by rfl),
   gemini_parser_characterization.2.2.2.2.1 _ _ (by rfl),
   gemini_parser_characterization.2.2.2.2.2 _ (by rfl)⟩

/-- C8: an unrecognized vendor identifier takes the generic fallback: the
parse succeeds (the only error path of `parse_request` is a failed JSON
decode of the body bytes, independent of the provider), the event has no
normalized messages, and the model is "unknown" when the body has no
string-valued top-level `model` field. -/
theorem unknown_provider_fallback (ct : String → Nat)
    (decode : List Nat → Option Json) (bytes : List Nat) (raw : Json)
    (path provider : String) (hdec : decode bytes = some raw)
    (ha : provider ≠ "anthropic") (ho : provider ≠ "openai")
    (hg : provider ≠ "gemini") :
    parse_request ct decode bytes path provider =
      .ok (parse_request_json ct raw path provider)
    ∧ (parse_request_json ct raw path provider).messages = []
    ∧ ((raw.get "model").bind Json.asStr = none →
        (parse_request_json ct raw path provider).model = "unknown") := by
  refine ⟨by simp [parse_request, hdec], ?_, fun hm => ?_⟩
  · simp [parse_request_json]
  · simp [parse_request_json, modelField, hm]

/-- Witness for `unknown_provider_fallback`: a decoder returning a fixed
body for provider "mystery". -/
theorem unknown_provider_fallback_witness :
    parse_request (fun _ => 1) (fun _ => some (.obj [("q", .str "hi")])) [123]
        "/api" "mystery" =
      .ok (parse_request_json (fun _ => 1) (.obj [("q", .str "hi")]) "/api" "mystery")
    ∧ (parse_request_json (fun _ => 1) (.obj [("q", .str "hi")]) "/api" "mystery").messages = []
    ∧ (parse_request_json (fun _ => 1) (.obj [("q", .str "hi")]) "/api" "mystery").model
        = "unknown" :=
  have h := unknown_provider_fallback (fun _ => 1)
    (fun _ => some (.obj [("q", .str "hi")]))
    [123] (.obj [("q", .str "hi")]) "/api" "mystery" rfl
    (by decide) (by decide) (by decide)
  ⟨h.1, h.2.1, h.2.2 (by rfl)⟩

theorem mem_forwardRequestHeaders (hs : List Header) (n v : String) :
    (n, v) ∈ forwardRequestHeaders hs ↔
      ∃ h ∈ hs, h.name = n ∧ headerValueToStr h.value = some v
        ∧ is_hop_by_hop_header (toLowerStr n) = false := by
  unfold forwardRequestHeaders
  rw [List.mem_filterMap]
  constructor
  · rintro ⟨h, hmem, hf⟩
    by_cases hop : is_hop_by_hop_header (toLowerStr h.name) = true
    · simp [hop] at hf
    · rw [Bool.not_eq_true] at hop
      simp only [hop, Bool.false_eq_true, if_false, Option.map_eq_some'] at hf
      obtain ⟨w, hw, heq⟩ := hf
      rw [Prod.mk.injEq] at heq
      obtain ⟨hn, hv⟩ := heq
      subst hn
      subst hv
      exact ⟨h, hmem, rfl, hw, hop⟩
  · rintro ⟨h, hmem, hn, hv, hhop⟩
    subst hn
    refine ⟨h, hmem, ?_⟩
    simp [hhop, hv]

theorem mem_forwardResponseHeaders (hs : List Header) (n v : String) :
    (n, v) ∈ forwardResponseHeaders hs ↔
      ∃ h ∈ hs, h.name = n ∧ headerValueToStr h.value = some v
        ∧ is_hop_by_hop_header (toLowerStr n) = false
        ∧ toLowerStr n ≠ "content-encoding" := by
  unfold forwardResponseHeaders
  rw [List.mem_filterMap]
  constructor
  · rintro ⟨h, hmem, hf⟩
    by_cases hc : (is_hop_by_hop_header (toLowerStr h.name)
        || toLowerStr h.name = "content-encoding") = true
    · simp [hc] at hf
    · rw [Bool.not_eq_true] at hc
      rw [Bool.or_eq_false_iff] at hc
      obtain ⟨hop, hce⟩ := hc
      rw [decide_eq_false_iff_not] at hce
      simp only [hop, hce, Bool.or_self, Bool.false_eq_true, if_false,
        decide_eq_false_iff_not, decide_False, Option.map_eq_some'] at hf
      obtain ⟨w, hw, heq⟩ := hf
      rw [Prod.mk.injEq] at heq
      obtain ⟨hn, hv⟩ := heq
      subst hn
      subst hv
      exact ⟨h, hmem, rfl, hw, hop, hce⟩
  · rintro ⟨h, hmem, hn, hv, hhop, hce⟩
    subst hn
    refine ⟨h, hmem, ?_⟩
    simp [hhop, hce, hv]

theorem handle_request_upstream_spec (ct : String → Nat)
    (decode : List Nat → Option Json)
    (send : UpstreamRequest → Except String UpstreamResponse)
    (req : InboundRequest) (providers : List (String × ProviderConfig))
    (queue : EventQueue) (u : UpstreamRequest)
    (hu : (handle_request ct decode send req providers queue).upstream = some u) :
    ∃ name bs, detect_provider req.path providers = some name
      ∧ req.body = .ok bs
      ∧ u = { method := method_to_reqwest req.method
              url := ((providersGet providers name).getD ⟨"", ""⟩).base_url ++ req.path
              headers := forwardRequestHeaders req.headers
              body := bs } := by
  unfold handle_request at hu
  split at hu
  · simp at hu
  · next name hname =>
    split at hu
    · simp at hu
    · next bs hbs =>
      refine ⟨name, bs, hname, hbs, ?_⟩
      dsimp only at hu
      split at hu
      · simp only [Option.some.injEq] at hu
        exact hu.symm
      · split at hu <;>
        · simp only [Option.some.injEq] at hu
          exact hu.symm

theorem handle_request_response_headers_spec (ct : String → Nat)
    (decode : List Nat → Option Json)
    (send : UpstreamRequest → Except String UpstreamResponse)
    (req : InboundRequest) (providers : List (String × ProviderConfig))
    (queue : EventQueue) :
    (handle_request ct decode send req providers queue).response.headers = []
    ∨ ∃ hs, (handle_request ct decode send req providers queue).response.headers
        = forwardResponseHeaders hs := by
  unfold handle_request
  split
  · left; rfl
  · split
    · left; rfl
    · dsimp only
      split
      · left; rfl
      · next upstream_resp hsend =>
        split
        · left; rfl
        · exact Or.inr ⟨upstream_resp.headers, rfl⟩

/-- A concrete inbound request used by witnesses: a mixed-case hop-by-hop
header, a valid custom header (byte 107 = "k"), and a custom header whose
value byte 200 is not visible ASCII. -/
def reqSample : InboundRequest :=
  { method := .POST
    path := "/v1/messages"
    headers := [⟨"Connection", [99]⟩, ⟨"X-Key", [107]⟩, ⟨"X-Bad", [200]⟩]
    body := .ok [123] }

/-- A one-provider set used by witnesses. -/
def provsSample : List (String × ProviderConfig) :=
  [("anthropic", ⟨"https://a", "/v1/messages"⟩)]

/-- A concrete upstream exchange used by witnesses: 200 with
`Content-Encoding`, `Connection` and `Server` headers (byte 115 = "s"). -/
def sendOk : UpstreamRequest → Except String UpstreamResponse :=
  fun _ => .ok
    { status := 200
      headers := [⟨"Content-Encoding", [103]⟩, ⟨"Connection", [99]⟩, ⟨"Server", [115]⟩]
      body := .ok [1] }

/-- The upstream request `handle_request` builds from `reqSample` and
`provsSample`: `Connection` stripped as hop-by-hop, `X-Bad` dropped for its
non-convertible value, `X-Key` forwarded. -/
def upstreamSample : UpstreamRequest :=
  { method := .POST
    url := "https://a/v1/messages"
    headers := [("X-Key", "k")]
    body := [123] }

/-- C3: no hop-by-hop header (compared case-insensitively) survives the
request-header copy loop or the response-header copy loop; consequently
none appears in the headers of the upstream request `handle_request` sends
nor in the headers of the response it returns, and response headers
additionally never carry `content-encoding`. -/
theorem hop_by_hop_never_forwarded :
    (∀ (headers : List Header) (p : String × String),
        p ∈ forwardRequestHeaders headers → is_hop_by_hop_header (toLowerStr p.1) = false)
    ∧ (∀ (headers : List Header) (p : String × String),
        p ∈ forwardResponseHeaders headers →
          is_hop_by_hop_header (toLowerStr p.1) = false ∧ toLowerStr p.1 ≠ "content-encoding")
    ∧ (∀ (ct : String → Nat) (decode : List Nat → Option Json)
        (send : UpstreamRequest → Except String UpstreamResponse)
        (req : InboundRequest) (providers : List (String × ProviderConfig))
        (queue : EventQueue) (u : UpstreamRequest),
        (handle_request ct decode send req providers queue).upstream = some u →
        ∀ p ∈ u.headers, is_hop_by_hop_header (toLowerStr p.1) = false)
    ∧ (∀ (ct : String → Nat) (decode : List Nat → Option Json)
        (send : UpstreamRequest → Except String UpstreamResponse)
        (req : InboundRequest) (providers : List (String × ProviderConfig))
        (queue : EventQueue),
        ∀ p ∈ (handle_request ct decode send req providers queue).response.headers,
          is_hop_by_hop_header (toLowerStr p.1) = false ∧ toLowerStr p.1 ≠ "content-encoding") := by
  have hreq : ∀ (headers : List Header) (p : String × String),
      p ∈ forwardRequestHeaders headers → is_hop_by_hop_header (toLowerStr p.1) = false := by
    rintro headers ⟨n, v⟩ hp
    obtain ⟨h, _, _, _, hhop⟩ := (mem_forwardRequestHeaders headers n v).mp hp
    exact hhop
  have hresp : ∀ (headers : List Header) (p : String × String),
      p ∈ forwardResponseHeaders headers →
        is_hop_by_hop_header (toLowerStr p.1) = false ∧ toLowerStr p.1 ≠ "content-encoding" := by
    rintro headers ⟨n, v⟩ hp
    obtain ⟨h, _, _, _, hhop, hce⟩ := (mem_forwardResponseHeaders headers n v).mp hp
    exact ⟨hhop, hce⟩
  refine ⟨hreq, hresp, ?_, ?_⟩
  · intro ct decode send req providers queue u hu p hp
    obtain ⟨name, bs, _, _, hueq⟩ :=
      handle_request_upstream_spec ct decode send req providers queue u hu
    exact hreq req.headers p (by rw [hueq] at hp; exact hp)
  · intro ct decode send req providers queue p hp
    rcases handle_request_response_headers_spec ct decode send req providers queue with
      hnil | ⟨hs, hhs⟩
    · rw [hnil] at hp
      cases hp
    · rw [hhs] at hp
      exact hresp hs p hp

/-- Witness for `hop_by_hop_never_forwarded` on the concrete scenario:
the surviving upstream header `X-Key` and response header `Server` are not
hop-by-hop. -/
theorem hop_by_hop_never_forwarded_witness :
    is_hop_by_hop_header (toLowerStr "X-Key") = false
    ∧ (is_hop_by_hop_header (toLowerStr "Server") = false
        ∧ toLowerStr "Server" ≠ "content-encoding") :=
  ⟨hop_by_hop_never_forwarded.2.2.1 (fun _ => 0) (fun _ => none) sendOk
      reqSample provsSample ⟨2, []⟩ upstreamSample (by decide)
      ("X-Key", "k") (by decide),
   hop_by_hop_never_forwarded.2.2.2 (fun _ => 0) (fun _ => none) sendOk
      reqSample provsSample ⟨2, []⟩ ("Server", "s") (by decide)⟩

/-- C10: a header is copied onward exactly when it is not hop-by-hop (and,
for responses, not `content-encoding`) and its value converts to a
visible-ASCII string; a header whose value fails the conversion is
silently omitted, while the rest of the handling is unchanged (the
upstream request is built from the surviving headers alone). -/
theorem header_value_conversion_filter :
    (∀ (headers : List Header) (n v : String),
        (n, v) ∈ forwardRequestHeaders headers ↔
          ∃ h ∈ headers, h.name = n ∧ headerValueToStr h.value = some v
            ∧ is_hop_by_hop_header (toLowerStr n) = false)
    ∧ (∀ (headers : List Header) (n v : String),
        (n, v) ∈ forwardResponseHeaders headers ↔
          ∃ h ∈ headers, h.name = n ∧ headerValueToStr h.value = some v
            ∧ is_hop_by_hop_header (toLowerStr n) = false
            ∧ toLowerStr n ≠ "content-encoding")
    ∧ (∀ (ct : String → Nat) (decode : List Nat → Option Json)
        (send : UpstreamRequest → Except String UpstreamResponse)
        (req : InboundRequest) (providers : List (String × ProviderConfig))
        (queue : EventQueue) (u : UpstreamRequest),
        (handle_request ct decode send req providers queue).upstream = some u →
        u.headers = forwardRequestHeaders req.headers) := by
  refine ⟨mem_forwardRequestHeaders, mem_forwardResponseHeaders, ?_⟩
  intro ct decode send req providers queue u hu
  obtain ⟨name, bs, _, _, hueq⟩ :=
    handle_request_upstream_spec ct decode send req providers queue u hu
  rw [hueq]

/-- Witness for `header_value_conversion_filter` on the concrete scenario:
the upstream request keeps only `X-Key` — `Connection` is hop-by-hop and
`X-Bad`'s value byte 200 does not convert. -/
theorem header_value_conversion_filter_witness :
    upstreamSample.headers = forwardRequestHeaders reqSample.headers
    ∧ forwardRequestHeaders reqSample.headers = [("X-Key", "k")] :=
  ⟨header_value_conversion_filter.2.2 (fun _ => 0) (fun _ => none) sendOk
      reqSample provsSample ⟨2, []⟩ upstreamSample (by decide),
   by decide⟩

theorem detect_provider_eq_find (path : String)
    (providers : List (String × ProviderConfig)) :
    detect_provider path providers =
      (providers.find? (fun p => strContains path p.2.path_pattern)).map
        (fun p => p.1) := by
  induction providers with
  | nil => rfl
  | cons p rest ih =>
    cases p with
    | mk name config =>
      by_cases hm : strContains path config.path_pattern
      · simp [detect_provider, List.find?, hm]
      · simp only [Bool.not_eq_true] at hm
        simp [detect_provider, List.find?, hm, ih]

/-- C4: the Provider Router returns the first provider (in iteration
order) whose path-pattern occurs as a substring of the raw request path,
succeeding iff some provider's pattern is contained in the path; on no
match the handler replies 400 "Unknown provider" without touching the
request body, forwarding nothing and leaving the event queue unchanged. -/
theorem provider_router_contract :
    (∀ (path : String) (providers : List (String × ProviderConfig)),
        detect_provider path providers =
          (providers.find? (fun p => strContains path p.2.path_pattern)).map
            (fun p => p.1))
    ∧ (∀ (path : String) (providers : List (String × ProviderConfig)),
        (detect_provider path providers).isSome ↔
          ∃ p ∈ providers, p.2.path_pattern.toList <:+: path.toList)
    ∧ (∀ (ct : String → Nat) (decode : List Nat → Option Json)
        (send : UpstreamRequest → Except String UpstreamResponse)
        (req : InboundRequest) (providers : List (String × ProviderConfig))
        (queue : EventQueue),
        detect_provider req.path providers = none →
        handle_request ct decode send req providers queue =
          { response := { status := 400, headers := [], body := .text "Unknown provider" }
            upstream := none
            queue := queue }) := by
  refine ⟨detect_provider_eq_find, fun path providers => ?_, ?_⟩
  · rw [detect_provider_eq_find, Option.isSome_map', List.find?_isSome]
    constructor
    · rintro ⟨p, hp, hm⟩
      exact ⟨p, hp, of_decide_eq_true hm⟩
    · rintro ⟨p, hp, hm⟩
      exact ⟨p, hp, decide_eq_true hm⟩
  · intro ct decode send req providers queue hdet
    unfold handle_request
    rw [hdet]

/-- Witness for `provider_router_contract`: the path "/nope" matches no
provider in the one-element sample set, so the handler 400s with nothing
forwarded. -/
theorem provider_router_contract_witness :
    handle_request (fun _ => 0) (fun _ => none) sendOk
        { method := .POST, path := "/nope", headers := [], body := .ok [1] }
        provsSample ⟨2, []⟩ =
      { response := { status := 400, headers := [], body := .text "Unknown provider" }
        upstream := none
        queue := ⟨2, []⟩ } :=
  provider_router_contract.2.2 (fun _ => 0) (fun _ => none) sendOk
    { method := .POST, path := "/nope", headers := [], body := .ok [1] }
    provsSample ⟨2, []⟩ (by decide)

theorem publishEvent_buffer_cases (ct : String → Nat)
    (decode : List Nat → Option Json) (q : EventQueue) (bs : List Nat)
    (path provider : String) :
    (publishEvent ct decode q bs path provider).buffer = q.buffer
    ∨ ∃ ev, (publishEvent ct decode q bs path provider).buffer = q.buffer ++ [ev] := by
  unfold publishEvent trySend
  split
  · left; rfl
  · split
    · split
      · next ev _ _ => exact Or.inr ⟨ev, rfl⟩
      · left; rfl
    · left; rfl

theorem publishEvent_full (ct : String → Nat)
    (decode : List Nat → Option Json) (q : EventQueue) (bs : List Nat)
    (path provider : String) (hfull : q.capacity ≤ q.buffer.length) :
    publishEvent ct decode q bs path provider = q := by
  unfold publishEvent trySend
  split
  · rfl
  · split
    · split
      · omega
      · rfl
    · rfl

/-- C5: forwarding is isolated from telemetry: the client response and the
upstream request of `handle_request` do not depend on the JSON decoder,
the token counter or the event-queue state (so a parse failure never
aborts forwarding), and the event publish has `try_send` semantics — the
queue either gains exactly the one event at its tail immediately or is
left unchanged, and a full queue is always left unchanged. -/
theorem forwarding_independent_of_telemetry :
    (∀ (ct₁ ct₂ : String → Nat) (d₁ d₂ : List Nat → Option Json)
        (send : UpstreamRequest → Except String UpstreamResponse)
        (req : InboundRequest) (providers : List (String × ProviderConfig))
        (q₁ q₂ : EventQueue),
        (handle_request ct₁ d₁ send req providers q₁).response =
          (handle_request ct₂ d₂ send req providers q₂).response
        ∧ (handle_request ct₁ d₁ send req providers q₁).upstream =
          (handle_request ct₂ d₂ send req providers q₂).upstream)
    ∧ (∀ (ct : String → Nat) (d : List Nat → Option Json)
        (send : UpstreamRequest → Except String UpstreamResponse)
        (req : InboundRequest) (providers : List (String × ProviderConfig))
        (q : EventQueue),
        (handle_request ct d send req providers q).queue.buffer = q.buffer
        ∨ ∃ ev, (handle_request ct d send req providers q).queue.buffer
            = q.buffer ++ [ev])
    ∧ (∀ (ct : String → Nat) (d : List Nat → Option Json)
        (send : UpstreamRequest → Except String UpstreamResponse)
        (req : InboundRequest) (providers : List (String × ProviderConfig))
        (q : EventQueue),
        q.capacity ≤ q.buffer.length →
        (handle_request ct d send req providers q).queue = q) := by
  refine ⟨?_, ?_, ?_⟩
  · intro ct₁ ct₂ d₁ d₂ send req providers q₁ q₂
    unfold handle_request
    refine ⟨?_, ?_⟩ <;>
    · split
      · rfl
      · split
        · rfl
        · dsimp only
          split
          · rfl
          · split <;> rfl
  · intro ct d send req providers q
    unfold handle_request
    split
    · left; rfl
    · next provider_name hname =>
      split
      · left; rfl
      · next bs hbs =>
        dsimp only
        have hq := publishEvent_buffer_cases ct d q bs req.path provider_name
        split
        · exact hq
        · split
          · exact hq
          · exact hq
  · intro ct d send req providers q hfull
    unfold handle_request
    split
    · rfl
    · next provider_name hname =>
      split
      · rfl
      · next bs hbs =>
        dsimp only
        have hq := publishEvent_full ct d q bs req.path provider_name hfull
        split
        · exact hq
        · split
          · exact hq
          · exact hq

/-- Witness for `forwarding_independent_of_telemetry`: a successfully
parsed event offered to a zero-capacity (full) queue is dropped and the
queue is unchanged. -/
theorem forwarding_independent_witness :
    (handle_request (fun _ => 1) (fun _ => some (.obj [])) sendOk
        reqSample provsSample ⟨0, []⟩).queue = ⟨0, []⟩ :=
  forwarding_independent_of_telemetry.2.2 (fun _ => 1) (fun _ => some (.obj []))
    sendOk reqSample provsSample ⟨0, []⟩ (by decide)

theorem take_append_take {α : Type} (l t : List α) (n : Nat) :
    (l ++ t.take n).take n = (l ++ t).take n := by
  rw [List.take_append_eq_append_take, List.take_append_eq_append_take,
    List.take_take, Nat.min_eq_left (Nat.sub_le n l.length)]

theorem foldl_add_request_total (es : List RequestEvent) (d : Dashboard)
    (hd : d.total_tokens < 2 ^ 64) :
    (es.foldl Dashboard.add_request d).total_tokens
      = (d.total_tokens + (es.map (fun e => e.tokens)).sum) % 2 ^ 64 := by
  induction es generalizing d with
  | nil => simpa using (Nat.mod_eq_of_lt hd).symm
  | cons e es ih =>
    simp only [List.foldl_cons, List.map_cons, List.sum_cons]
    rw [ih (d.add_request e) (Nat.mod_lt _ (by norm_num))]
    show ((d.total_tokens + e.tokens) % 2 ^ 64
        + (es.map (fun e => e.tokens)).sum) % 2 ^ 64 = _
    rw [Nat.mod_add_mod, Nat.add_assoc]

theorem foldl_add_request_requests (es : List RequestEvent) (d : Dashboard)
    (hd : d.requests.length ≤ d.max_log_entries) :
    (es.foldl Dashboard.add_request d).requests
      = ((es.reverse.map RequestInfo.ofEvent) ++ d.requests).take d.max_log_entries := by
  induction es generalizing d with
  | nil => simp [List.take_of_length_le hd]
  | cons e es ih =>
    simp only [List.foldl_cons]
    rw [ih (d.add_request e) (by
      simp only [Dashboard.add_request, trimBack_eq_take]
      exact List.length_take_le _ _)]
    have hmax : (d.add_request e).max_log_entries = d.max_log_entries := rfl
    have hreqs : (d.add_request e).requests
        = (RequestInfo.ofEvent e :: d.requests).take d.max_log_entries := by
      simp only [Dashboard.add_request, trimBack_eq_take]
    rw [hmax, hreqs, take_append_take]
    simp [List.append_assoc]

theorem foldl_add_request_length (es : List RequestEvent) (d : Dashboard)
    (hd : d.requests.length ≤ d.max_log_entries) :
    (es.foldl Dashboard.add_request d).requests.length ≤ d.max_log_entries := by
  rw [foldl_add_request_requests es d hd]
  exact List.length_take_le _ _

/-- C6: folding N received events into a fresh aggregator yields a
cumulative total equal to the sum of their token counts (the u64 addition
does not wrap below `2 ^ 64`), a summary sequence that is exactly the
most-recent-first image of the last C received events (so the evicted
summaries are exactly the oldest-received ones), a length never exceeding
the configured capacity, and a front element summarizing the most
recently received event. -/
theorem aggregator_invariants (cap : Nat) (es : List RequestEvent)
    (hsum : (es.map (fun e => e.tokens)).sum < 2 ^ 64) (hcap : 0 < cap) :
    (es.foldl Dashboard.add_request (Dashboard.new cap)).total_tokens
      = (es.map (fun e => e.tokens)).sum
    ∧ (es.foldl Dashboard.add_request (Dashboard.new cap)).requests
      = (es.reverse.map RequestInfo.ofEvent).take cap
    ∧ (es.foldl Dashboard.add_request (Dashboard.new cap)).requests.length ≤ cap
    ∧ (es.foldl Dashboard.add_request (Dashboard.new cap)).requests.head?
      = es.getLast?.map RequestInfo.ofEvent := by
  have hreq := foldl_add_request_requests es (Dashboard.new cap) (by simp [Dashboard.new])
  have hreq' : (es.foldl Dashboard.add_request (Dashboard.new cap)).requests
      = (es.reverse.map RequestInfo.ofEvent).take cap := by
    rw [hreq]
    simp [Dashboard.new]
  refine ⟨?_, hreq', ?_, ?_⟩
  · rw [foldl_add_request_total es (Dashboard.new cap) (by simp [Dashboard.new])]
    simp only [Dashboard.new, Nat.zero_add]
    exact Nat.mod_eq_of_lt hsum
  · rw [hreq']
    exact List.length_take_le _ _
  · rw [hreq']
    rw [← List.head?_reverse]
    cases hrev : es.reverse with
    | nil => simp
    | cons x xs =>
      obtain ⟨k, rfl⟩ := Nat.exists_eq_succ_of_ne_zero (Nat.pos_iff_ne_zero.mp hcap)
      simp [List.take_succ_cons]

/-- A sample event with 3 tokens. -/
def evSample1 : RequestEvent :=
  { provider := "anthropic", model := "m", tokens := 3, messages := [],
    raw_body := .null, path := "/v1/messages" }

/-- A sample event with 5 tokens. -/
def evSample2 : RequestEvent :=
  { provider := "openai", model := "gpt", tokens := 5, messages := [],
    raw_body := .null, path := "/x" }

/-- Witness for `aggregator_invariants`: two events into a capacity-1
aggregator — the total is the sum and the single surviving summary is the
most recent event's. -/
theorem aggregator_invariants_witness :
    ([evSample1, evSample2].foldl Dashboard.add_request (Dashboard.new 1)).total_tokens
      = ([evSample1, evSample2].map (fun e => e.tokens)).sum
    ∧ ([evSample1, evSample2].foldl Dashboard.add_request (Dashboard.new 1)).requests.head?
      = [evSample1, evSample2].getLast?.map RequestInfo.ofEvent :=
  have h := aggregator_invariants 1 [evSample1, evSample2] (by decide) (by decide)
  ⟨h.1, h.2.2.2⟩

/-- C9 counterexample: for the inbound method CONNECT the handler builds
an upstream request with method GET, not CONNECT — `method_to_reqwest`
maps every method outside its seven matched cases to GET, so the claim
that the outbound method always equals the inbound one fails. -/
theorem method_not_preserved_cex :
    ((handle_request (fun _ => 0) (fun _ => none) (fun _ => .error "down")
        { method := .CONNECT, path := "/v1/messages", headers := [], body := .ok [] }
        provsSample ⟨2, []⟩).upstream.map (fun u => u.method)) = some .GET
    ∧ Method.CONNECT ≠ Method.GET := ⟨by decide, by decide⟩

/-- C9 (amended): the outbound request uses `method_to_reqwest` of the
inbound method — equal to it for the seven standard methods GET, POST,
PUT, DELETE, PATCH, HEAD and OPTIONS, and GET for CONNECT, TRACE and
extension methods — together with the already-buffered body bytes. -/
theorem method_forwarding_amended (ct : String → Nat)
    (decode : List Nat → Option Json)
    (send : UpstreamRequest → Except String UpstreamResponse)
    (req : InboundRequest) (providers : List (String × ProviderConfig))
    (queue : EventQueue) (u : UpstreamRequest)
    (hu : (handle_request ct decode send req providers queue).upstream = some u) :
    u.method = method_to_reqwest req.method
    ∧ (req.method = .GET ∨ req.method = .POST ∨ req.method = .PUT
        ∨ req.method = .DELETE ∨ req.method = .PATCH ∨ req.method = .HEAD
        ∨ req.method = .OPTIONS → u.method = req.method)
    ∧ (req.method = .CONNECT ∨ req.method = .TRACE ∨ (∃ s, req.method = .ext s) →
        u.method = .GET)
    ∧ req.body = .ok u.body := by
  obtain ⟨name, bs, hdet, hbody, hueq⟩ :=
    handle_request_upstream_spec ct decode send req providers queue u hu
  subst hueq
  refine ⟨rfl, ?_, ?_, hbody⟩
  · rintro (h | h | h | h | h | h | h) <;> rw [h] <;> rfl
  · rintro (h | h | ⟨s, h⟩) <;> rw [h] <;> rfl

/-- Witness for `method_forwarding_amended` on the concrete POST
scenario. -/
theorem method_forwarding_amended_witness :
    upstreamSample.method = method_to_reqwest reqSample.method
    ∧ reqSample.body = .ok upstreamSample.body :=
  have h := method_forwarding_amended (fun _ => 0) (fun _ => none) sendOk
    reqSample provsSample ⟨2, []⟩ upstreamSample (by decide)
  ⟨h.1, h.2.2.2⟩
